import Mathlib

/-!
Verification development for the zenfeed-web read-state synchronization engine
(`src/lib/stores/readStateStore.ts`) and the item-identity resolver
(`getFeedItemId` in `src/lib/utils/feedUtils.ts`).

The TypeScript store is embedded shallowly:

* the JavaScript `Map<string, number>` of read markers becomes an association
  list `ReadMap` with JS-`Map` semantics (`mapHas`, `mapSet`, `mapDelete`);
* the browser `localStorage` slots and the in-process retry queue become
  fields of an explicit `StoreState`;
* each network round trip (`getFeedReadStatus` / `updateFeedReadStatus`)
  becomes an `Except Unit Status` parameter, the value the awaited call would
  have produced (`.error` models a thrown network/HTTP error);
* `Date.now()` becomes an explicit `Nat` clock argument;
* a ghost field `pulls` records every id for which the code reaches the
  backend GET (`getFeedReadStatus`), so that "attempts a backend pull" is a
  statement about the model.
-/

namespace Zenfeed

/-- The backend's `read_status` values: `'read' | 'unread' | 'deleted'`. -/
inductive Status where
  | read
  | unread
  | deleted
deriving DecidableEq, Repr

/-- In-memory read-marker map, `Map<string, number>` in the source: itemId to
`Date.now()` read timestamp, kept in insertion order like a JS `Map`. -/
abbrev ReadMap : Type := List (String × Nat)

/-- JS `Map.prototype.has`. -/
def mapHas (m : ReadMap) (k : String) : Bool :=
  m.any (fun e => e.1 == k)

/-- JS `Map.prototype.set`: replace in place when the key is present,
append otherwise. -/
def mapSet (m : ReadMap) (k : String) (v : Nat) : ReadMap :=
  if mapHas m k then m.map (fun e => if e.1 == k then (k, v) else e)
  else m ++ [(k, v)]

/-- JS `Map.prototype.delete` (a JS `Map` has unique keys, so removing every
entry with the key is the same operation). -/
def mapDelete (m : ReadMap) (k : String) : ReadMap :=
  m.filter (fun e => !(e.1 == k))

/-- Constant `SYNC_INTERVAL = 30 * 60 * 1000` (30 minutes in milliseconds). -/
def SYNC_INTERVAL : Nat := 30 * 60 * 1000

/-- The store's mutable world: the in-memory map, the two `localStorage`
slots (`zenfeed_read_feeds` serialized entries, `zenfeed_read_sync_timestamp`),
the retry queue (`syncQueue : Set<string>`, insertion-ordered, deduplicated),
and the ghost log `pulls` of ids for which `getFeedReadStatus` was invoked. -/
structure StoreState where
  map : ReadMap
  readSlot : Option ReadMap
  syncSlot : Option Nat
  queue : List String
  pulls : List String
deriving DecidableEq, Repr

/-- JS `Set.prototype.add`: a no-op when the element is already present. -/
def setAdd (q : List String) (id : String) : List String :=
  if id ∈ q then q else q ++ [id]

/-- Source `updateLocalState` (readStateStore.ts lines 78-89), the pure map part:
mark read only when absent (keeping an existing timestamp), mark unread only
when present, otherwise return the map unchanged. -/
def updateLocalState (itemId : String) (isRead : Bool) (now : Nat) (m : ReadMap) : ReadMap :=
  if isRead && !(mapHas m itemId) then mapSet m itemId now
  else if !isRead && mapHas m itemId then mapDelete m itemId
  else m

/-- The store-level effect of `updateLocalState`: update the map and persist
it wholesale (`saveToLocalStorage`, called on every mutation). -/
def applyLocal (s : StoreState) (itemId : String) (isRead : Bool) (now : Nat) : StoreState :=
  let m := updateLocalState itemId isRead now s.map
  { s with map := m, readSlot := some m }

/-- Source `shouldSync` (lines 91-100): sync when no timestamp is stored, or when
more than `SYNC_INTERVAL` has elapsed since it (browser environment assumed;
`Date.now() - Number(lastSync)` is compared with strict `>`, and a negative
difference, truncated to `0` by `Nat` subtraction, fails the test exactly as
in JS). -/
def shouldSync (now : Nat) (s : StoreState) : Bool :=
  match s.syncSlot with
  | none => true
  | some last => decide (now - last > SYNC_INTERVAL)

/-- Source `syncWithBackend` (lines 109-128). `pull` is the outcome the awaited
`getFeedReadStatus(itemId)` call delivers; reaching that call is recorded in
`pulls`. The body's own `try/catch` converts a thrown pull into
`syncQueue.add(itemId)`, so this function never propagates an error. -/
def syncWithBackend (itemId : String) (now : Nat) (pull : Except Unit Status)
    (s : StoreState) : StoreState :=
  if !(shouldSync now s) then s
  else
    let s0 := { s with pulls := s.pulls ++ [itemId] }
    match pull with
    | .ok st =>
        let s1 :=
          if st = Status.read then applyLocal s0 itemId true now
          else if st = Status.unread then applyLocal s0 itemId false now
          else s0
        { s1 with syncSlot := some now }
    | .error _ => { s0 with queue := setAdd s0.queue itemId }

/-- Source `processSyncQueue` (lines 131-143): snapshot the queue, clear it, then
run `syncWithBackend` for each snapshotted id in order. `pull` gives the
backend's answer per id during this drain. (The loop's own `catch` is dead
code because `syncWithBackend` never throws.) -/
def processSyncQueue (now : Nat) (pull : String → Except Unit Status)
    (s : StoreState) : StoreState :=
  s.queue.foldl (fun acc itemId => syncWithBackend itemId now (pull itemId) acc)
    { s with queue := [] }

/-- The synchronous prefix of `markRead` (lines 153-157): resolve the id and
update local state immediately, before the backend push is awaited. -/
def markReadLocal (itemId : String) (now : Nat) (s : StoreState) : StoreState :=
  applyLocal s itemId true now

/-- The continuation of `markRead` after its push resolves (lines 159-169):
a confirmed status other than `'read'` reverts the local state; a thrown push
enqueues the id for retry. -/
def resolveReadPush (itemId : String) (r : Except Unit Status) (now : Nat)
    (s : StoreState) : StoreState :=
  match r with
  | .ok st => if st ≠ Status.read then applyLocal s itemId false now else s
  | .error _ => { s with queue := setAdd s.queue itemId }

/-- Source `markRead` end to end: the synchronous local update, then the push
resolution with outcome `r` at time `t1`. -/
def markRead (itemId : String) (r : Except Unit Status) (t0 t1 : Nat)
    (s : StoreState) : StoreState :=
  resolveReadPush itemId r t1 (markReadLocal itemId t0 s)

/-- The synchronous prefix of `markUnread` (lines 172-176). -/
def markUnreadLocal (itemId : String) (now : Nat) (s : StoreState) : StoreState :=
  applyLocal s itemId false now

/-- The continuation of `markUnread` after its push resolves (lines 178-188). -/
def resolveUnreadPush (itemId : String) (r : Except Unit Status) (now : Nat)
    (s : StoreState) : StoreState :=
  match r with
  | .ok st => if st ≠ Status.unread then applyLocal s itemId true now else s
  | .error _ => { s with queue := setAdd s.queue itemId }

/-- Source `markUnread` end to end. -/
def markUnread (itemId : String) (r : Except Unit Status) (t0 t1 : Nat)
    (s : StoreState) : StoreState :=
  resolveUnreadPush itemId r t1 (markUnreadLocal itemId t0 s)

/-- Source `isRead` (lines 195-198) for a raw string id: `currentMap.has(itemId)`. -/
def isRead (itemId : String) (m : ReadMap) : Bool :=
  mapHas m itemId

/-- One interleaving step of the single-threaded event loop: the synchronous
local half of a mark call, or the later resolution of its in-flight push. -/
inductive Event where
  | localRead (itemId : String) (t : Nat)
  | localUnread (itemId : String) (t : Nat)
  | resolveRead (itemId : String) (r : Except Unit Status) (t : Nat)
  | resolveUnread (itemId : String) (r : Except Unit Status) (t : Nat)

/-- Interpret one event on the store state. -/
def stepEvent (s : StoreState) (e : Event) : StoreState :=
  match e with
  | .localRead itemId t => markReadLocal itemId t s
  | .localUnread itemId t => markUnreadLocal itemId t s
  | .resolveRead itemId r t => resolveReadPush itemId r t s
  | .resolveUnread itemId r t => resolveUnreadPush itemId r t s

/-- Run a sequence of interleaved events. -/
def runTrace (s : StoreState) (es : List Event) : StoreState :=
  es.foldl stepEvent s

/-! ### Store initialization (readStateStore.ts lines 49-65)

`createReadItemsStore` reads `localStorage[READ_ITEMS_STORAGE_KEY]` and runs
`JSON.parse` on it; the parse outcome is the model's input, as a JS value. -/

/-- A JavaScript value as produced by `JSON.parse`. -/
inductive Json where
  | null
  | bool (b : Bool)
  | num (n : Int)
  | str (s : String)
  | arr (xs : List Json)
  | obj (fields : List (String × Json))

/-- The source's validation of the persisted value:
`Array.isArray(parsedArray) && parsedArray.every(pair => Array.isArray(pair) && pair.length === 2)`. -/
def isValidReadItems : Json → Bool
  | .arr xs => xs.all (fun p => match p with | .arr ps => ps.length == 2 | _ => false)
  | _ => false

/-- The `[key, value]` entries handed to `new Map(parsedArray)` when the
validation succeeds (on a valid value every element has exactly this shape). -/
def entriesOf : Json → List (Json × Json)
  | .arr xs => xs.filterMap (fun p => match p with | .arr [k, v] => some (k, v) | _ => none)
  | _ => []

/-- Outcome of store initialization: the entries loaded into the in-memory
map (the JS `Map` constructor deduplicates keys, irrelevant here), whether
`localStorage.removeItem(READ_ITEMS_STORAGE_KEY)` ran, and whether a
warning/error was logged. The function is total: no branch throws to the
caller. -/
structure InitResult where
  map : List (Json × Json)
  cleared : Bool
  warned : Bool

/-- Load phase of `createReadItemsStore`. `stored = none`: no (truthy) stored
string, the map stays empty. `stored = some none`: `JSON.parse` threw, the
`catch` logs and clears the slot. `stored = some (some j)`: the parsed value
`j` is validated; on failure the slot is cleared with a warning. -/
def initializeStore (stored : Option (Option Json)) : InitResult :=
  match stored with
  | none => ⟨[], false, false⟩
  | some none => ⟨[], true, true⟩
  | some (some j) =>
      if isValidReadItems j then ⟨entriesOf j, false, false⟩
      else ⟨[], true, true⟩

/-! ### Identity resolver (`getFeedItemId`, feedUtils.ts lines 10-23) -/

/-- A feed item as the resolver sees it: an optional backend-assigned numeric
id and the label object, modelled as its insertion-ordered `(key, value)`
entries (a JS object has unique keys). -/
structure FeedVO where
  id : Option Nat
  labels : List (String × String)
  time : String

/-- Modelled from the spec: `simpleHash` (imported from `hashUtils`, a module
absent from src/) is "a deterministic, non-cryptographic string hash"; the
resolver uses its "decimal string form". Embedded as a 32-bit polynomial
string hash; any deterministic total function satisfies the spec's words. -/
def simpleHash (s : String) : Nat :=
  s.foldl (fun h c => (h * 31 + c.toNat) % 4294967296) 0

/-- Source `getFeedItemId`: use the backend-provided id's string form when present;
otherwise sort the label keys, join `key=value` pairs with `&` in sorted
order, and return the decimal string of the hash. (`labels[key]` is embedded
as association-list lookup; the `getD ""` default is unreachable because
every sorted key comes from the label list itself.) -/
def getFeedItemId (feed : FeedVO) : String :=
  match feed.id with
  | some n => toString n
  | none =>
      let sortedKeys := List.insertionSort (fun a b => a ≤ b) (feed.labels.map Prod.fst)
      let combinedString :=
        String.intercalate "&"
          (sortedKeys.map (fun key => key ++ "=" ++ ((feed.labels.lookup key).getD "")))
      toString (simpleHash combinedString)

/-! ### Basic lemmas about the JS `Map` embedding -/

theorem mapHas_append_single (m : ReadMap) (k : String) (v : Nat) :
    mapHas (m ++ [(k, v)]) k = true := by
  simp [mapHas]

theorem mapHas_mapSet_self (m : ReadMap) (k : String) (v : Nat) :
    mapHas (mapSet m k v) k = true := by
  unfold mapSet
  by_cases h : mapHas m k
  · simp only [h, if_true]
    unfold mapHas at h ⊢
    induction m with
    | nil => simp at h
    | cons e tl ih =>
        simp only [List.any_cons, Bool.or_eq_true] at h
        simp only [List.map_cons, List.any_cons, Bool.or_eq_true]
        by_cases he : (e.1 == k) = true
        · left
          simp [he]
        · right
          apply ih
          rcases h with h | h
          · exact absurd h he
          · exact h
  · simp only [h, if_false]
    exact mapHas_append_single m k v

theorem mapHas_mapDelete_self (m : ReadMap) (k : String) :
    mapHas (mapDelete m k) k = false := by
  induction m with
  | nil => rfl
  | cons e tl ih =>
      by_cases he : e.1 == k
      · simp only [mapDelete, mapHas, List.filter_cons, he] at ih ⊢
        simp only [Bool.not_true, if_neg, ite_false] at ih ⊢
        exact ih
      · simp only [mapDelete, List.filter_cons] at ih ⊢
        simp only [he, Bool.not_false]
        simp only [mapHas, List.any_cons] at ih ⊢
        simp [he, ih]

theorem mapHas_updateLocalState_true (m : ReadMap) (k : String) (t : Nat) :
    mapHas (updateLocalState k true t m) k = true := by
  unfold updateLocalState
  by_cases h : mapHas m k
  · simp [h]
  · simp only [Bool.not_eq_true] at h
    simp [h, mapHas_mapSet_self]

theorem mapHas_updateLocalState_false (m : ReadMap) (k : String) (t : Nat) :
    mapHas (updateLocalState k false t m) k = false := by
  unfold updateLocalState
  by_cases h : mapHas m k
  · simp [h, mapHas_mapDelete_self]
  · simp only [Bool.not_eq_true] at h
    simp [h]

theorem mem_setAdd_self (q : List String) (a : String) : a ∈ setAdd q a := by
  by_cases h : a ∈ q
  · simp [setAdd, h]
  · simp [setAdd, h]

theorem mem_setAdd_of_mem (q : List String) (a b : String) (h : a ∈ q) :
    a ∈ setAdd q b := by
  by_cases hb : b ∈ q
  · simp [setAdd, hb, h]
  · simp [setAdd, hb, h]

/-! ### Structural lemmas about the store operations -/

theorem applyLocal_queue (s : StoreState) (itemId : String) (b : Bool) (t : Nat) :
    (applyLocal s itemId b t).queue = s.queue := rfl

theorem applyLocal_pulls (s : StoreState) (itemId : String) (b : Bool) (t : Nat) :
    (applyLocal s itemId b t).pulls = s.pulls := rfl

theorem applyLocal_syncSlot (s : StoreState) (itemId : String) (b : Bool) (t : Nat) :
    (applyLocal s itemId b t).syncSlot = s.syncSlot := rfl

theorem syncWithBackend_skip (itemId : String) (now : Nat) (pull : Except Unit Status)
    (s : StoreState) (h : shouldSync now s = false) :
    syncWithBackend itemId now pull s = s := by
  simp [syncWithBackend, h]

theorem syncWithBackend_ok_syncSlot (itemId : String) (now : Nat) (st : Status)
    (s : StoreState) (h : shouldSync now s = true) :
    (syncWithBackend itemId now (Except.ok st) s).syncSlot = some now := by
  unfold syncWithBackend
  simp only [h, Bool.not_true, Bool.false_eq_true, if_false]

theorem syncWithBackend_ok_pulls (itemId : String) (now : Nat) (st : Status)
    (s : StoreState) (h : shouldSync now s = true) :
    (syncWithBackend itemId now (Except.ok st) s).pulls = s.pulls ++ [itemId] := by
  unfold syncWithBackend
  simp only [h, Bool.not_true, Bool.false_eq_true, if_false]
  cases st <;> rfl

theorem syncWithBackend_ok_queue (itemId : String) (now : Nat) (st : Status)
    (s : StoreState) (h : shouldSync now s = true) :
    (syncWithBackend itemId now (Except.ok st) s).queue = s.queue := by
  unfold syncWithBackend
  simp only [h, Bool.not_true, Bool.false_eq_true, if_false]
  cases st <;> rfl

theorem syncWithBackend_error_queue (itemId : String) (now : Nat)
    (s : StoreState) (h : shouldSync now s = true) :
    (syncWithBackend itemId now (Except.error ()) s).queue = setAdd s.queue itemId := by
  unfold syncWithBackend
  simp [h, setAdd]

theorem syncWithBackend_queue_mono (itemId a : String) (now : Nat)
    (pull : Except Unit Status) (s : StoreState) (h : a ∈ s.queue) :
    a ∈ (syncWithBackend itemId now pull s).queue := by
  unfold syncWithBackend
  by_cases hs : shouldSync now s = true
  · simp only [hs, Bool.not_true, Bool.false_eq_true, if_false]
    cases pull with
    | ok st => cases st <;> exact h
    | error e => exact mem_setAdd_of_mem _ a itemId h

  · simp only [Bool.not_eq_true] at hs
    simp [hs, h]

theorem syncWithBackend_error_pulls (itemId : String) (now : Nat)
    (s : StoreState) (h : shouldSync now s = true) :
    (syncWithBackend itemId now (Except.error ()) s).pulls = s.pulls ++ [itemId] := by
  unfold syncWithBackend
  simp [h]

theorem shouldSync_congr (n : Nat) (s s' : StoreState) (h : s.syncSlot = s'.syncSlot) :
    shouldSync n s = shouldSync n s' := by
  unfold shouldSync
  rw [h]

theorem foldl_sync_skip (now : Nat) (pull : String → Except Unit Status) :
    ∀ (ids : List String) (acc : StoreState), shouldSync now acc = false →
      ids.foldl (fun a i => syncWithBackend i now (pull i) a) acc = acc := by
  intro ids
  induction ids with
  | nil => intro acc _; rfl
  | cons i tl ih =>
      intro acc h
      rw [List.foldl_cons, syncWithBackend_skip i now (pull i) acc h]
      exact ih acc h

theorem sync_inv_step (j id : String) (now : Nat) (pullj : Except Unit Status)
    (acc : StoreState) (hinv : id ∈ acc.pulls → id ∈ acc.queue)
    (hj : j = id → pullj = Except.error ()) :
    id ∈ (syncWithBackend j now pullj acc).pulls →
      id ∈ (syncWithBackend j now pullj acc).queue := by
  by_cases hs : shouldSync now acc = true
  · cases pullj with
    | ok st =>
        rw [syncWithBackend_ok_pulls j now st acc hs, syncWithBackend_ok_queue j now st acc hs]
        intro hmem
        rcases List.mem_append.1 hmem with hmem | hmem
        · exact hinv hmem
        · exfalso
          have hje : j = id := (List.mem_singleton.1 hmem).symm
          exact Except.noConfusion (hj hje).symm
    | error e =>
        cases e
        rw [syncWithBackend_error_pulls j now acc hs, syncWithBackend_error_queue j now acc hs]
        intro hmem
        rcases List.mem_append.1 hmem with hmem | hmem
        · exact mem_setAdd_of_mem acc.queue id j (hinv hmem)
        · have hje : j = id := (List.mem_singleton.1 hmem).symm
          subst hje
          exact mem_setAdd_self acc.queue j
  · have hs' : shouldSync now acc = false := by
      cases hfs : shouldSync now acc
      · rfl
      · exact absurd hfs hs
    rw [syncWithBackend_skip j now pullj acc hs']
    exact hinv

theorem foldl_sync_pull_inv (now : Nat) (pull : String → Except Unit Status)
    (id : String) (hp : pull id = Except.error ()) :
    ∀ (ids : List String) (acc : StoreState),
      (id ∈ acc.pulls → id ∈ acc.queue) →
      id ∈ (ids.foldl (fun a i => syncWithBackend i now (pull i) a) acc).pulls →
        id ∈ (ids.foldl (fun a i => syncWithBackend i now (pull i) a) acc).queue := by
  intro ids
  induction ids with
  | nil => intro acc hinv; exact hinv
  | cons i tl ih =>
      intro acc hinv
      rw [List.foldl_cons]
      refine ih (syncWithBackend i now (pull i) acc) ?_
      refine sync_inv_step i id now (pull i) acc hinv ?_
      intro hie
      rw [hie, hp]

/-! ### Claim theorems -/

/-- C9: if the persisted read-items slot holds data that does not deserialize
to an array of 2-element pairs (for example the JSON string `"not-an-array"`,
or unparseable text, which makes `JSON.parse` throw), `initializeStore`
produces an empty map, removes the read-items storage key, logs a warning,
and — being a total function — does not throw to the caller. -/
theorem initializeStore_malformed_recovers (j : Json) (h : isValidReadItems j = false) :
    initializeStore (some (some j)) = ⟨[], true, true⟩ ∧
    initializeStore (some none) = ⟨[], true, true⟩ := by
  constructor
  · simp [initializeStore, h]
  · rfl

theorem initializeStore_malformed_recovers_witness :
    initializeStore (some (some (Json.str "not-an-array"))) = ⟨[], true, true⟩ ∧
    initializeStore (some none) = ⟨[], true, true⟩ :=
  initializeStore_malformed_recovers (Json.str "not-an-array") rfl

/-- C10: the local mark operations are idempotent on the in-memory map:
marking read an id already present leaves the map (and hence the originally
recorded timestamp) unchanged, and marking unread an absent id leaves the
map unchanged. -/
theorem updateLocalState_idempotent (m : ReadMap) (k : String) (t : Nat) :
    (mapHas m k = true → updateLocalState k true t m = m) ∧
    (mapHas m k = false → updateLocalState k false t m = m) := by
  constructor
  · intro h
    simp [updateLocalState, h]
  · intro h
    simp [updateLocalState, h]

theorem updateLocalState_idempotent_witness :
    updateLocalState "a" true 7 [("a", 5)] = [("a", 5)] ∧
    updateLocalState "b" false 7 [("a", 5)] = [("a", 5)] :=
  ⟨(updateLocalState_idempotent [("a", 5)] "a" 7).1 (by decide),
   (updateLocalState_idempotent [("a", 5)] "b" 7).2 (by decide)⟩

/-- C6: `markRead` applies the change to the in-memory map synchronously,
before any backend response is observed: after the synchronous local step
`isRead` is already true and the full map is persisted to the read-items
slot, and the complete `markRead` is exactly that local step followed by the
later push resolution. -/
theorem markRead_optimistic (s : StoreState) (itemId : String) (t : Nat) :
    isRead itemId (markReadLocal itemId t s).map = true ∧
    (markReadLocal itemId t s).readSlot = some (markReadLocal itemId t s).map ∧
    ∀ (r : Except Unit Status) (t1 : Nat),
      markRead itemId r t t1 s = resolveReadPush itemId r t1 (markReadLocal itemId t s) := by
  refine ⟨?_, rfl, fun r t1 => rfl⟩
  simp [isRead, markReadLocal, applyLocal, mapHas_updateLocalState_true]

/-- C4: when the backend push of `markRead` resolves with a confirmed status
other than `'read'`, the final local state is unread (the optimistic entry
removed), the map is persisted, and the id is not enqueued for retry; and
symmetrically for `markUnread` with a confirmed status other than
`'unread'`. -/
theorem markPush_rejected_rollback (s : StoreState) (itemId : String)
    (t0 t1 : Nat) (st : Status) :
    (st ≠ Status.read →
      isRead itemId (markRead itemId (Except.ok st) t0 t1 s).map = false ∧
      (markRead itemId (Except.ok st) t0 t1 s).readSlot =
        some (markRead itemId (Except.ok st) t0 t1 s).map ∧
      (markRead itemId (Except.ok st) t0 t1 s).queue = s.queue) ∧
    (st ≠ Status.unread →
      isRead itemId (markUnread itemId (Except.ok st) t0 t1 s).map = true ∧
      (markUnread itemId (Except.ok st) t0 t1 s).readSlot =
        some (markUnread itemId (Except.ok st) t0 t1 s).map ∧
      (markUnread itemId (Except.ok st) t0 t1 s).queue = s.queue) := by
  constructor
  · intro h
    refine ⟨?_, ?_, ?_⟩
    · simp [markRead, resolveReadPush, h, markReadLocal, applyLocal, isRead,
        mapHas_updateLocalState_false]
    · simp [markRead, resolveReadPush, h, markReadLocal, applyLocal]
    · simp [markRead, resolveReadPush, h, markReadLocal, applyLocal]
  · intro h
    refine ⟨?_, ?_, ?_⟩
    · simp [markUnread, resolveUnreadPush, h, markUnreadLocal, applyLocal, isRead,
        mapHas_updateLocalState_true]
    · simp [markUnread, resolveUnreadPush, h, markUnreadLocal, applyLocal]
    · simp [markUnread, resolveUnreadPush, h, markUnreadLocal, applyLocal]

/-- C1 counterexample: with the sync timestamp freshly set (last sync at
`1000`, drain at `1000`), a drain over queue `["a"]` attempts no backend
pull at all — the sync-interval throttle suppresses the retry, contradicting
the claim that a drain pulls every queued id regardless of the throttle. -/
theorem drain_throttle_suppresses_cex :
    "a" ∈ (StoreState.mk [] none (some 1000) ["a"] []).queue ∧
    (processSyncQueue 1000 (fun _ => Except.ok Status.read)
      (StoreState.mk [] none (some 1000) ["a"] [])).pulls = [] := by
  exact ⟨by decide, by decide⟩

/-- C1 (amended): retry attempts during drain ARE gated by the SyncTimestamp:
when the sync interval has not elapsed at drain time, the drain attempts no
backend pull for any queued id and merely clears the queue. -/
theorem drain_throttled_no_pull (now : Nat) (pull : String → Except Unit Status)
    (s : StoreState) (h : shouldSync now s = false) :
    processSyncQueue now pull s = { s with queue := [] } := by
  unfold processSyncQueue
  exact foldl_sync_skip now pull s.queue { s with queue := [] } h

theorem drain_throttled_no_pull_witness :
    processSyncQueue 1000 (fun _ => Except.ok Status.read)
      (StoreState.mk [] none (some 1000) ["a"] [])
      = StoreState.mk [] none (some 1000) [] [] :=
  drain_throttled_no_pull 1000 (fun _ => Except.ok Status.read)
    (StoreState.mk [] none (some 1000) ["a"] []) (by decide)

/-- C2 counterexample: a drain during the sync interval removes the queued
id `"a"` without performing any backend pull (so certainly without a
successful one) — the final queue is empty, contradicting the claim that an
id with no successful pull is again a member when the drain ends. -/
theorem drain_drops_pending_cex :
    "a" ∈ (StoreState.mk [] none (some 1000) ["a"] []).queue ∧
    (processSyncQueue 1000 (fun _ => Except.error ())
      (StoreState.mk [] none (some 1000) ["a"] [])).pulls = [] ∧
    (processSyncQueue 1000 (fun _ => Except.error ())
      (StoreState.mk [] none (some 1000) ["a"] [])).queue = [] := by
  exact ⟨by decide, by decide, by decide⟩

/-- C2 (amended): an id whose backend pull is actually attempted during the
drain and fails is again a member of the queue when the drain ends; but an
id whose attempt the SyncTimestamp throttle suppresses is dropped from the
queue without any pull. -/
theorem drain_failed_attempt_requeued (now : Nat) (pull : String → Except Unit Status)
    (s : StoreState) (id : String) (hp : pull id = Except.error ())
    (h0 : id ∉ s.pulls) (hin : id ∈ (processSyncQueue now pull s).pulls) :
    id ∈ (processSyncQueue now pull s).queue := by
  unfold processSyncQueue at hin ⊢
  refine foldl_sync_pull_inv now pull id hp s.queue { s with queue := [] } ?_ hin
  intro hmem
  exact absurd hmem h0

theorem drain_failed_attempt_requeued_witness :
    "a" ∈ (processSyncQueue 5 (fun _ => Except.error ())
      (StoreState.mk [] none none ["a"] [])).queue :=
  drain_failed_attempt_requeued 5 (fun _ => Except.error ())
    (StoreState.mk [] none none ["a"] []) "a" rfl (by decide) (by decide)

/-- C3 counterexample: the trace markRead("a"), markUnread("a"), markRead("a")
leaves `"a"` read (the most recent mark operation), but when the first
markRead's push then resolves with confirmed status `'unread'`, the code
rolls back against the status requested by that stale call and deletes the
entry — the newer local state is overwritten, contradicting the claim. -/
theorem staleResolution_overwrites_cex :
    isRead "a" (runTrace (StoreState.mk [] none none [] [])
      [Event.localRead "a" 1, Event.localUnread "a" 2, Event.localRead "a" 3]).map = true ∧
    isRead "a" (runTrace (StoreState.mk [] none none [] [])
      [Event.localRead "a" 1, Event.localUnread "a" 2, Event.localRead "a" 3,
       Event.resolveRead "a" (Except.ok Status.unread) 4]).map = false := by
  exact ⟨by decide, by decide⟩

/-- C3 (amended): at resolution time the code compares the confirmed status
only with the status REQUESTED by the originating call, never with the state
the UI currently wants: a push that resolves with exactly its requested
status leaves the store untouched (so it cannot overwrite newer state), while
a push that resolves with any other status unconditionally re-applies the
opposite mutation for that id, regardless of intervening operations. -/
theorem resolution_compares_requested_status (s : StoreState) (itemId : String)
    (t : Nat) (st st' : Status) (h : st ≠ Status.read) (h' : st' ≠ Status.unread) :
    stepEvent s (Event.resolveRead itemId (Except.ok Status.read) t) = s ∧
    stepEvent s (Event.resolveUnread itemId (Except.ok Status.unread) t) = s ∧
    isRead itemId (stepEvent s (Event.resolveRead itemId (Except.ok st) t)).map = false ∧
    isRead itemId (stepEvent s (Event.resolveUnread itemId (Except.ok st') t)).map = true := by
  refine ⟨?_, ?_, ?_, ?_⟩
  · simp [stepEvent, resolveReadPush]
  · simp [stepEvent, resolveUnreadPush]
  · simp [stepEvent, resolveReadPush, h, applyLocal, isRead, mapHas_updateLocalState_false]
  · simp [stepEvent, resolveUnreadPush, h', applyLocal, isRead, mapHas_updateLocalState_true]

theorem resolution_compares_requested_status_witness :
    stepEvent (StoreState.mk [("a", 3)] none none [] [])
      (Event.resolveRead "a" (Except.ok Status.read) 9)
      = StoreState.mk [("a", 3)] none none [] [] ∧
    stepEvent (StoreState.mk [("a", 3)] none none [] [])
      (Event.resolveUnread "a" (Except.ok Status.unread) 9)
      = StoreState.mk [("a", 3)] none none [] [] ∧
    isRead "a" (stepEvent (StoreState.mk [("a", 3)] none none [] [])
      (Event.resolveRead "a" (Except.ok Status.unread) 9)).map = false ∧
    isRead "a" (stepEvent (StoreState.mk [("a", 3)] none none [] [])
      (Event.resolveUnread "a" (Except.ok Status.read) 9)).map = true :=
  resolution_compares_requested_status (StoreState.mk [("a", 3)] none none [] [])
    "a" 9 Status.unread Status.read (by decide) (by decide)

theorem markPush_rejected_rollback_witness :
    isRead "42" (markRead "42" (Except.ok Status.unread) 1 2 ⟨[], none, none, [], []⟩).map
      = false ∧
    isRead "42" (markUnread "42" (Except.ok Status.read) 1 2 ⟨[], none, none, [], []⟩).map
      = true :=
  ⟨((markPush_rejected_rollback ⟨[], none, none, [], []⟩ "42" 1 2 Status.unread).1
      (by decide)).1,
   ((markPush_rejected_rollback ⟨[], none, none, [], []⟩ "42" 1 2 Status.read).2
      (by decide)).1⟩

/-- C5: when the push of `markRead(id)` throws, the optimistic local state
is kept (`id` remains read) and `id` enters the retry queue; a subsequent
drain (here on a store whose queue was empty before the failure, with the
throttle open) attempts the backend pull for `id`, and when that pull
succeeds `id` is no longer in the queue when the drain ends. -/
theorem markRead_push_failed_retry (s : StoreState) (itemId : String)
    (t0 now : Nat) (st : Status) (pull : String → Except Unit Status)
    (hq : s.queue = []) (hp : pull itemId = Except.ok st)
    (hs : shouldSync now s = true) :
    isRead itemId (markRead itemId (Except.error ()) t0 t0 s).map = true ∧
    itemId ∈ (markRead itemId (Except.error ()) t0 t0 s).queue ∧
    (processSyncQueue now pull (markRead itemId (Except.error ()) t0 t0 s)).pulls
      = s.pulls ++ [itemId] ∧
    (processSyncQueue now pull (markRead itemId (Except.error ()) t0 t0 s)).queue = [] := by
  have hmap : (markRead itemId (Except.error ()) t0 t0 s).map
      = updateLocalState itemId true t0 s.map := rfl
  have hqueue : (markRead itemId (Except.error ()) t0 t0 s).queue
      = setAdd s.queue itemId := rfl
  have hread : isRead itemId (markRead itemId (Except.error ()) t0 t0 s).map = true := by
    rw [hmap]
    exact mapHas_updateLocalState_true s.map itemId t0
  have hqmem : itemId ∈ (markRead itemId (Except.error ()) t0 t0 s).queue := by
    rw [hqueue]
    exact mem_setAdd_self s.queue itemId
  have hone : setAdd ([] : List String) itemId = [itemId] := by simp [setAdd]
  have hs2 : shouldSync now
      { markRead itemId (Except.error ()) t0 t0 s with queue := ([] : List String) } = true := hs
  refine ⟨hread, hqmem, ?_, ?_⟩
  · unfold processSyncQueue
    rw [hqueue, hq, hone, List.foldl_cons, List.foldl_nil, hp]
    rw [syncWithBackend_ok_pulls itemId now st _ hs2]
    rfl
  · unfold processSyncQueue
    rw [hqueue, hq, hone, List.foldl_cons, List.foldl_nil, hp]
    rw [syncWithBackend_ok_queue itemId now st _ hs2]

theorem markRead_push_failed_retry_witness :
    isRead "42" (markRead "42" (Except.error ()) 1 1
      (StoreState.mk [] none none [] [])).map = true ∧
    "42" ∈ (markRead "42" (Except.error ()) 1 1 (StoreState.mk [] none none [] [])).queue ∧
    (processSyncQueue 2 (fun _ => Except.ok Status.read)
      (markRead "42" (Except.error ()) 1 1 (StoreState.mk [] none none [] []))).pulls
      = [] ++ ["42"] ∧
    (processSyncQueue 2 (fun _ => Except.ok Status.read)
      (markRead "42" (Except.error ()) 1 1 (StoreState.mk [] none none [] []))).queue = [] :=
  markRead_push_failed_retry (StoreState.mk [] none none [] []) "42" 1 2 Status.read
    (fun _ => Except.ok Status.read) rfl rfl rfl

/-- C8: two `sync(id)` calls within the sync interval of a successful
reconciliation perform at most one backend pull: after a first call whose
pull succeeds at `n1`, a second call at any `n2` with `n2 - n1 ≤
SYNC_INTERVAL` is skipped entirely — the whole store state (map, persisted
slots, queue, pull log) is exactly what it was after the first call, and the
two calls together logged exactly one pull. -/
theorem sync_throttled_second_call (s : StoreState) (itemId : String)
    (n1 n2 : Nat) (st : Status) (p2 : Except Unit Status)
    (h1 : shouldSync n1 s = true) (h2 : n2 - n1 ≤ SYNC_INTERVAL) :
    syncWithBackend itemId n2 p2 (syncWithBackend itemId n1 (Except.ok st) s)
      = syncWithBackend itemId n1 (Except.ok st) s ∧
    (syncWithBackend itemId n1 (Except.ok st) s).pulls = s.pulls ++ [itemId] := by
  have hslot := syncWithBackend_ok_syncSlot itemId n1 st s h1
  have hss : shouldSync n2 (syncWithBackend itemId n1 (Except.ok st) s) = false := by
    unfold shouldSync
    rw [hslot]
    simp only [decide_eq_false_iff_not]
    exact Nat.not_lt.mpr h2
  exact ⟨syncWithBackend_skip itemId n2 p2 _ hss,
    syncWithBackend_ok_pulls itemId n1 st s h1⟩

theorem sync_throttled_second_call_witness :
    syncWithBackend "x" 20 (Except.ok Status.read)
      (syncWithBackend "x" 10 (Except.ok Status.deleted) (StoreState.mk [] none none [] []))
      = syncWithBackend "x" 10 (Except.ok Status.deleted) (StoreState.mk [] none none [] []) ∧
    (syncWithBackend "x" 10 (Except.ok Status.deleted)
      (StoreState.mk [] none none [] [])).pulls = [] ++ ["x"] :=
  sync_throttled_second_call (StoreState.mk [] none none [] []) "x" 10 20
    Status.deleted (Except.ok Status.read) rfl (by decide)

/-! ### Association-list lookup lemmas for the identity resolver -/

theorem lookup_of_mem_nodup (k v : String) :
    ∀ l : List (String × String), (l.map Prod.fst).Nodup → (k, v) ∈ l →
      l.lookup k = some v := by
  intro l
  induction l with
  | nil => intro _ hm; cases hm
  | cons e tl ih =>
      intro hnd hm
      rw [List.map_cons, List.nodup_cons] at hnd
      rcases List.mem_cons.1 hm with he | hm'
      · rw [← he]
        simp [List.lookup]
      · have hk : k ∈ tl.map Prod.fst := List.mem_map.2 ⟨(k, v), hm', rfl⟩
        have hne : (k == e.1) = false :=
          beq_eq_false_iff_ne.mpr (fun hke => hnd.1 (hke ▸ hk))
        obtain ⟨a, b⟩ := e
        simp only [List.lookup, hne]
        exact ih hnd.2 hm'

theorem lookup_none_of_not_mem (k : String) :
    ∀ l : List (String × String), k ∉ l.map Prod.fst → l.lookup k = none := by
  intro l
  induction l with
  | nil => intro _; rfl
  | cons e tl ih =>
      intro hk
      rw [List.map_cons, List.mem_cons] at hk
      push_neg at hk
      have hne : (k == e.1) = false := beq_eq_false_iff_ne.mpr hk.1
      obtain ⟨a, b⟩ := e
      simp only [List.lookup, hne]
      exact ih hk.2

theorem lookup_perm_nodup (k : String) (l₁ l₂ : List (String × String))
    (hp : l₁.Perm l₂) (hnd : (l₁.map Prod.fst).Nodup) :
    l₁.lookup k = l₂.lookup k := by
  by_cases hk : k ∈ l₁.map Prod.fst
  · rcases List.mem_map.1 hk with ⟨e, he, hfst⟩
    obtain ⟨a, v⟩ := e
    cases hfst
    have hnd₂ : (l₂.map Prod.fst).Nodup := ((hp.map Prod.fst).nodup_iff).1 hnd
    rw [lookup_of_mem_nodup a v l₁ hnd he,
      lookup_of_mem_nodup a v l₂ hnd₂ (hp.mem_iff.1 he)]
  · rw [lookup_none_of_not_mem k l₁ hk,
      lookup_none_of_not_mem k l₂ (fun hmem => hk ((hp.map Prod.fst).mem_iff.2 hmem))]

/-- C7: `getFeedItemId` returns the string form of the backend-provided id
when present; otherwise the decimal string of the deterministic hash of the
canonical `key=value` string joined with `&` over lexicographically sorted
keys — so two items whose label lists are permutations of one another (the
same mapping in a different insertion order) get the same id, and the empty
label set succeeds by hashing the empty string. -/
theorem getFeedItemId_spec (f g : FeedVO) (n : Nat) :
    (f.id = some n → getFeedItemId f = toString n) ∧
    (f.id = none → g.id = none → f.labels.Perm g.labels →
      (f.labels.map Prod.fst).Nodup → getFeedItemId f = getFeedItemId g) ∧
    (f.id = none → f.labels = [] → getFeedItemId f = toString (simpleHash "")) := by
  refine ⟨?_, ?_, ?_⟩
  · intro h
    simp [getFeedItemId, h]
  · intro hf hg hp hnd
    have hkeys : (f.labels.map Prod.fst).Perm (g.labels.map Prod.fst) := hp.map Prod.fst
    have hsorted :
        List.insertionSort (fun a b => a ≤ b) (f.labels.map Prod.fst)
          = List.insertionSort (fun a b => a ≤ b) (g.labels.map Prod.fst) := by
      exact List.eq_of_perm_of_sorted
        ((List.perm_insertionSort _ _).trans
          (hkeys.trans (List.perm_insertionSort _ _).symm))
        (List.sorted_insertionSort _ _) (List.sorted_insertionSort _ _)
    have hlk : ∀ key, f.labels.lookup key = g.labels.lookup key :=
      fun key => lookup_perm_nodup key f.labels g.labels hp hnd
    simp only [getFeedItemId, hf, hg, hsorted]
    have hmap :
        (List.insertionSort (fun a b => a ≤ b) (g.labels.map Prod.fst)).map
            (fun key => key ++ "=" ++ ((f.labels.lookup key).getD ""))
          = (List.insertionSort (fun a b => a ≤ b) (g.labels.map Prod.fst)).map
            (fun key => key ++ "=" ++ ((g.labels.lookup key).getD "")) :=
      List.map_congr_left (fun a _ => by rw [hlk a])
    rw [hmap]
  · intro h hl
    simp [getFeedItemId, h, hl]
    rfl

theorem getFeedItemId_spec_witness :
    getFeedItemId ⟨some 7, [("t", "B")], "x"⟩ = toString 7 ∧
    getFeedItemId ⟨none, [("title", "B"), ("author", "x")], ""⟩
      = getFeedItemId ⟨none, [("author", "x"), ("title", "B")], ""⟩ ∧
    getFeedItemId ⟨none, [], ""⟩ = toString (simpleHash "") :=
  ⟨(getFeedItemId_spec ⟨some 7, [("t", "B")], "x"⟩ ⟨some 7, [("t", "B")], "x"⟩ 7).1 rfl,
   (getFeedItemId_spec ⟨none, [("title", "B"), ("author", "x")], ""⟩
      ⟨none, [("author", "x"), ("title", "B")], ""⟩ 0).2.1 rfl rfl
      (by decide) (by decide),
   (getFeedItemId_spec ⟨none, [], ""⟩ ⟨none, [], ""⟩ 0).2.2 rfl rfl⟩

end Zenfeed
